import Mathlib

/-!
Shallow embedding of `scripts/parse_main_2subfiles.py`, a script that splits
a monolithic LaTeX `main.tex` into subfiles according to `toc_main.txt` and
regenerates a master file referencing the pieces.

Modelling conventions:
* a text file is a `List String` of its lines (as produced by Python's
  `readlines()`, each line keeping its trailing newline where relevant);
* Python exceptions (the `ValueError` of `int(...)` and of `list.index`,
  `IndexError`) are modelled by `Option`: `none` means the run aborts;
* Python list slicing `l[a:b]` (with clipping and negative-index wrap-around)
  is modelled by `pySlice`;
* `float('inf')` as an end bound is modelled by `Option Int` with `none`
  standing for the unbounded end;
* Python string primitives (`str.strip`, `str.split`, `str.startswith`,
  `in`, `str.replace`) are modelled as executable functions over the
  character list of the string, restricted to ASCII whitespace.
-/

/-- Models Python `str.strip()` (whitespace restricted to ASCII space, tab,
carriage return, newline): drop leading and trailing whitespace. -/
def pyStrip (s : String) : String :=
  ⟨((s.data.dropWhile Char.isWhitespace).reverse.dropWhile Char.isWhitespace).reverse⟩

/-- Splits a character list on a separator character, keeping empty pieces,
as Python `str.split(sep)` does for a one-character separator. -/
def splitCharList (sep : Char) : List Char → List (List Char)
  | [] => [[]]
  | c :: t =>
    match splitCharList sep t with
    | [] => [[]]
    | g :: gs => if c = sep then [] :: g :: gs else (c :: g) :: gs

/-- Models Python `s.split(',')`. -/
def pySplitComma (s : String) : List String :=
  (splitCharList ',' s.data).map (fun l => ⟨l⟩)

/-- Models Python `s.startswith(pre)`. -/
def pyStartsWith (s pre : String) : Bool :=
  pre.data.isPrefixOf s.data

/-- One step list of Python substring containment: `pat in l` for character
lists. -/
def containsSubList (pat : List Char) : List Char → Bool
  | [] => pat.isEmpty
  | c :: t => pat.isPrefixOf (c :: t) || containsSubList pat t

/-- Models Python `pat in s` (substring containment). -/
def pyContains (s pat : String) : Bool :=
  containsSubList pat.data s.data

/-- Fuel-indexed worker for `pyReplace`; `fuel` bounds the number of
characters consumed, so `fuel = l.length` gives Python's leftmost,
non-overlapping replace-all for a non-empty pattern. -/
def replaceAllFuel (pat rep : List Char) : Nat → List Char → List Char
  | 0, l => l
  | _ + 1, [] => []
  | fuel + 1, c :: t =>
    if pat.isPrefixOf (c :: t) && !pat.isEmpty then
      rep ++ replaceAllFuel pat rep fuel ((c :: t).drop pat.length)
    else
      c :: replaceAllFuel pat rep fuel t

/-- Models Python `s.replace(pat, rep)` for a non-empty pattern (the script
only uses pattern `".tex"`). -/
def pyReplace (s pat rep : String) : String :=
  ⟨replaceAllFuel pat.data rep.data s.data.length s.data⟩

/-- Embeds class `TexSection`: one structural record of the document
(level, title, label, 1-indexed line number). -/
structure TexSection where
  level : String
  title : String
  label : String
  line_num : Int
deriving Repr, DecidableEq

/-- Models Python `int(s)` on an already-stripped string, restricted to an
optional ASCII sign followed by ASCII decimal digits (underscore grouping and
non-ASCII digits are not modelled); `none` models the `ValueError`. -/
def pyInt? (s : String) : Option Int :=
  let digitsVal : List Char → Option Nat := fun ds =>
    if ds.isEmpty then none
    else ds.foldl (fun acc c =>
      acc.bind fun n => if c.isDigit then some (n * 10 + (c.toNat - '0'.toNat)) else none)
      (some 0)
  match s.data with
  | '-' :: ds => (digitsVal ds).map (fun n => -(n : Int))
  | '+' :: ds => (digitsVal ds).map (fun n => (n : Int))
  | ds => (digitsVal ds).map (fun n => (n : Int))

/-- Embeds the body of `parse_toc`'s loop for one line: strip the line, skip
it when blank, split on commas and strip the fields, build a `TexSection`
when there are exactly 4 fields (otherwise drop the line silently).
`none` models an uncaught `ValueError` from `int(line_num)`; `some none`
means the line produced no record; `some (some r)` is a parsed record. -/
def parse_line? (line : String) : Option (Option TexSection) :=
  if pyStrip line = "" then some none
  else
    match (pySplitComma (pyStrip line)).map pyStrip with
    | [level, title, label, line_num] =>
      match pyInt? line_num with
      | none => none
      | some n => some (some ⟨level, title, label, n⟩)
    | _ => some none

/-- Embeds `parse_toc`: fold `parse_line?` over the lines of `toc_main.txt`,
in order; any line-level `ValueError` aborts the whole parse. -/
def parse_toc (tocLines : List String) : Option (List TexSection) :=
  match tocLines with
  | [] => some []
  | l :: rest =>
    match parse_line? l with
    | none => none
    | some none => parse_toc rest
    | some (some r) => (parse_toc rest).map (r :: ·)

/-- Embeds `level_hierarchy` from `find_section_content_range`. -/
def level_hierarchy : List String := ["chapter", "section", "subsection", "subsubsection"]

/-- Embeds `level_hierarchy.index(level)`; `none` models the uncaught
`ValueError` raised by `list.index` on an unknown level. -/
def levelIndex (lvl : String) : Option Nat :=
  level_hierarchy.findIdx? (fun x => x == lvl)

/-- Embeds the forward scan inside `find_section_content_range`, over the
records after the target: stop at the first record whose hierarchy rank is
less than or equal to `cur` and return its line number minus one; `some none`
means no such record (the Python `end_line = float('inf')` case); `none`
models the abort on a scanned record with an unknown level. -/
def scanEnd : List TexSection → Nat → Option (Option Int)
  | [], _ => some none
  | s :: rest, cur =>
    match levelIndex s.level with
    | none => none
    | some nIdx => if nIdx ≤ cur then some (some (s.line_num - 1)) else scanEnd rest cur

/-- Embeds `find_section_content_range sections section_idx`: returns
`(start_line, end_line)` with `end_line = none` standing for `float('inf')`;
the outer `none` models the aborts (index error, unknown level). -/
def find_section_content_range (sections : List TexSection) (section_idx : Nat) :
    Option (Int × Option Int) :=
  match sections[section_idx]? with
  | none => none
  | some sect =>
    match levelIndex sect.level with
    | none => none
    | some current_level_idx =>
      match scanEnd (sections.drop (section_idx + 1)) current_level_idx with
      | none => none
      | some e => some (sect.line_num, e)

/-- Normalises one Python slice index against a list length `n`: negative
indices wrap around from the end, then the result is clipped to `[0, n]`. -/
def pyIdx (n : Nat) (a : Int) : Nat :=
  (if a < 0 then max (a + (n : Int)) 0 else min a (n : Int)).toNat

/-- Models Python list slicing `l[a:b]` for integer bounds. -/
def pySlice {α : Type} (l : List α) (a b : Int) : List α :=
  (l.take (pyIdx l.length b)).drop (pyIdx l.length a)

/-- Embeds `extract_lines lines start end`: 1-indexed inclusive start, end
either an integer bound (clipped via `min(end, len(lines))`) or unbounded
(`none`, the `float('inf')` case, for which `min` yields `len(lines)`). -/
def extract_lines (lines : List String) (start : Int) (stop : Option Int) : List String :=
  pySlice lines (start - 1)
    (match stop with
     | none => (lines.length : Int)
     | some e => min e (lines.length : Int))

/-- Embeds the fixed header list built at the top of `create_subfile`. -/
def SUBFILE_HEADER : List String :=
  ["\\documentclass[../main.tex]\x7bsubfiles\x7d\n",
   "\\graphicspath\x7b\x7b\\subfix\x7b../Images/\x7d\x7d\x7d\n",
   "\\begin\x7bdocument\x7d\n",
   "\n"]

/-- Embeds the single string appended as footer in `create_subfile`. -/
def SUBFILE_FOOTER : String := "\n\\end\x7bdocument\x7d\n"

/-- Embeds `create_subfile`'s `subfile_content` list: header, then the
content lines, then the footer string. -/
def create_subfile_lines (content : List String) : List String :=
  SUBFILE_HEADER ++ content ++ [SUBFILE_FOOTER]

/-- The bytes `f.writelines(subfile_content)` writes: the concatenation of
the strings of `create_subfile_lines`. -/
def create_subfile_bytes (content : List String) : String :=
  String.join (create_subfile_lines content)

/-- Embeds the hard-coded `LABEL_TO_FILENAME` dict, in insertion order. -/
def LABEL_TO_FILENAME : List (String × String) :=
  [("significance_of_study", "significance_of_study.tex"),
   ("problem_statement1", "problem_statement1.tex"),
   ("perception_geometry", "perception_geometry.tex"),
   ("sensors", "sensors.tex"),
   ("sec:Atlas_LAN", "hardware.tex"),
   ("sec:calibration", "calibration.tex"),
   ("sec:sensor_data_dataset", "sensor_data.tex"),
   ("yolo", "yolo.tex"),
   ("gbcache", "gbcache.tex"),
   ("late_fusion", "late_fusion.tex"),
   ("performance", "performance.tex")]

/-- Models the dict lookup `LABEL_TO_FILENAME[label]` / `label in
LABEL_TO_FILENAME` (the keys of the literal dict are pairwise distinct, so
first-match lookup agrees with dict semantics). -/
def label_to_filename? (label : String) : Option String :=
  (LABEL_TO_FILENAME.find? (fun p => p.1 == label)).map Prod.snd

/-- Embeds `find_preamble_end`: 1-indexed line of the first line whose strip
starts with `\begin{document}`, defaulting to 1. -/
def find_preamble_end (lines : List String) : Int :=
  match lines.findIdx? (fun l => pyStartsWith (pyStrip l) "\\begin\x7bdocument\x7d") with
  | some i => (i : Int) + 1
  | none => 1

/-- Embeds `find_frontmatter_end`: 1-indexed line of the first line that
contains `\mainmatter` or whose strip starts with `\chapter{`, defaulting to
`find_preamble_end`. -/
def find_frontmatter_end (lines : List String) : Int :=
  match lines.findIdx?
      (fun l => pyContains l "\\mainmatter" || pyStartsWith (pyStrip l) "\\chapter\x7b") with
  | some i => (i : Int) + 1
  | none => find_preamble_end lines

/-- Embeds `chapter_indices = [i for i, s in enumerate(sections) if s.level
== 'chapter']` from `generate_main_w_sub`. -/
def chapter_indices (sections : List TexSection) : List Nat :=
  (sections.enum.filter (fun p => p.2.level == "chapter")).map Prod.fst

/-- Embeds one iteration of the chapter loop in `generate_main_w_sub`
(Step 3), for the chapter at index `ci` with following chapter index (or
`sections.length`) `next_chapter_idx`. -/
def chapterBlock (lines : List String) (sections : List TexSection)
    (ci next_chapter_idx : Nat) : List String :=
  match sections[ci]? with
  | none => []
  | some chapter =>
    let heading : String :=
      if chapter.label.data.isEmpty then
        "\\chapter\x7b" ++ chapter.title ++ "\x7d\n\n"
      else
        "\\chapter\x7b" ++ chapter.title ++ "\x7d \\label\x7b" ++ chapter.label ++ "\x7d\n\n"
    let chapter_sections :=
      ((sections.enum.drop (ci + 1)).take (next_chapter_idx - (ci + 1))).filter
        (fun p => p.2.level == "section")
    let subfile_sections :=
      chapter_sections.filter (fun p => (label_to_filename? p.2.label).isSome)
    if subfile_sections.isEmpty then
      let end_line : Int :=
        match sections[next_chapter_idx]? with
        | some s => s.line_num - 1
        | none => (lines.length : Int)
      let content := (extract_lines lines chapter.line_num (some end_line)).filter
        (fun l => !(pyStartsWith (pyStrip l) "\\chapter\x7b"))
      [heading] ++ content ++ ["\n"]
    else
      let introStop : Option Int :=
        match chapter_sections with
        | [] => none
        | p :: _ => some (p.2.line_num - 1)
      let intro := (extract_lines lines chapter.line_num introStop).filter
        (fun l => !(pyStartsWith (pyStrip l) "\\chapter\x7b"))
      let subfileCmds := subfile_sections.map (fun p =>
        "\\subfile\x7bsections/" ++
          pyReplace ((label_to_filename? p.2.label).getD "") ".tex" "" ++ "\x7d\n")
      [heading] ++ intro ++ ["\n"] ++ subfileCmds ++ ["\n"]

/-- Embeds the whole chapter loop of `generate_main_w_sub` over the list of
chapter indices. -/
def chaptersOut (lines : List String) (sections : List TexSection) : List Nat → List String
  | [] => []
  | ci :: rest =>
    let next_chapter_idx : Nat :=
      match rest with
      | [] => sections.length
      | c2 :: _ => c2
    chapterBlock lines sections ci next_chapter_idx ++ chaptersOut lines sections rest

/-- Embeds the back-matter marker test of `generate_main_w_sub` (Step 4):
the line contains `\backmatter` or `\bibliography`. -/
def isMarkerLine (l : String) : Bool :=
  pyContains l "\\backmatter" || pyContains l "\\bibliography"

/-- Embeds the `while` loop of Step 4: first index `≥ i` holding a
chapter-level record, or `sections.length`. -/
def scanNonChapter (sections : List TexSection) (i : Nat) : Nat :=
  match (sections.drop i).findIdx? (fun s => s.level == "chapter") with
  | some k => i + k
  | none => sections.length

/-- Embeds the computation of `backmatter_start` in Step 4 of
`generate_main_w_sub`, given the index of the last chapter-level record:
the line number of the first record after it at chapter level if any,
otherwise 1 plus the index of the first marker line, otherwise the number
of lines of the file. -/
def backmatter_start_val (lines : List String) (sections : List TexSection)
    (last_chapter_idx : Nat) : Int :=
  match sections[scanNonChapter sections (last_chapter_idx + 1)]? with
  | some s => s.line_num
  | none =>
    match lines.findIdx? isMarkerLine with
    | some i => (i : Int) + 1
    | none => (lines.length : Int)

/-- Embeds Step 4 of `generate_main_w_sub`: the lines appended after the
chapter blocks (empty when there is no chapter-level record). -/
def backmatterSuffix (lines : List String) (sections : List TexSection) : List String :=
  match (chapter_indices sections).getLast? with
  | none => []
  | some last_chapter_idx =>
    pySlice lines (backmatter_start_val lines sections last_chapter_idx - 1)
      (lines.length)

/-- Embeds `generate_main_w_sub` end to end: the list of strings passed to
`f.writelines` for `main_w_sub.tex`. -/
def generate_main_w_sub (lines : List String) (sections : List TexSection) : List String :=
  let preamble_end := find_preamble_end lines
  let part1 := pySlice lines 0 (preamble_end - 1) ++
    ["\\usepackage\x7bsubfiles\x7d % Best loaded last in the preamble\n",
     "\n\\begin\x7bdocument\x7d\n\n"]
  let frontmatter := extract_lines lines (preamble_end + 1) (some (find_frontmatter_end lines - 1))
  part1 ++ frontmatter ++ ["\n\\mainmatter\n\\newpage\n"] ++
    chaptersOut lines sections (chapter_indices sections) ++
    backmatterSuffix lines sections

/-- Embeds the subfile-generation loop of `main` over a label→filename
mapping: for each entry in order, either record a warning (label not found
among the parsed records) or produce `(filename, extracted content)`;
`none` models an abort inside `find_section_content_range`. -/
def process_labels (mapping : List (String × String)) (sections : List TexSection)
    (lines : List String) : Option (List (String × List String) × List String) :=
  match mapping with
  | [] => some ([], [])
  | (label, filename) :: rest =>
    match sections.findIdx? (fun s => s.label == label) with
    | none => (process_labels rest sections lines).map (fun r => (r.1, label :: r.2))
    | some i =>
      match find_section_content_range sections i with
      | none => none
      | some (s, e) =>
        (process_labels rest sections lines).map
          (fun r => ((filename, extract_lines lines s e) :: r.1, r.2))

/-- Embeds one whole run of `main` as a function of the two input files:
returns the subfile names with their byte contents, the list of warned
labels, and the bytes of `main_w_sub.tex`; `none` models an aborted run. -/
def run_tool (tocLines mainLines : List String) :
    Option (List (String × String) × List String × String) :=
  match parse_toc tocLines with
  | none => none
  | some sections =>
    match process_labels LABEL_TO_FILENAME sections mainLines with
    | none => none
    | some (files, warnings) =>
      some (files.map (fun p => (p.1, create_subfile_bytes p.2)), warnings,
        String.join (generate_main_w_sub mainLines sections))

/-! Helper lemmas about the embedded operations. -/

theorem getElem?_drop_add {α : Type} (l : List α) (i j : Nat) :
    (l.drop i)[j]? = l[i + j]? := by
  induction l generalizing i with
  | nil => simp
  | cons a t ih =>
    cases i with
    | zero => simp
    | succ i' => simpa [Nat.succ_add] using ih i'

theorem scanEnd_eq_of_first (l : List TexSection) (cur : Nat) (m : Nat) (r : TexSection)
    (ri : Nat) (hm : l[m]? = some r) (hri : levelIndex r.level = some ri) (hle : ri ≤ cur)
    (hmid : ∀ k, k < m → ∀ s, l[k]? = some s →
      ∃ si, levelIndex s.level = some si ∧ cur < si) :
    scanEnd l cur = some (some (r.line_num - 1)) := by
  induction l generalizing m with
  | nil => simp at hm
  | cons s t ih =>
    cases m with
    | zero =>
      simp only [List.getElem?_cons_zero, Option.some.injEq] at hm
      subst hm
      simp [scanEnd, hri, hle]
    | succ m' =>
      obtain ⟨si, hsi, hgt⟩ := hmid 0 (Nat.succ_pos m') s (by simp)
      have hnot : ¬ si ≤ cur := Nat.not_le.mpr hgt
      simp only [List.getElem?_cons_succ] at hm
      have ht := ih m' hm (fun k hk u hu =>
        hmid (k + 1) (Nat.succ_lt_succ hk) u (by simpa using hu))
      simp [scanEnd, hsi, hnot, ht]

theorem scanEnd_eq_none : ∀ (l : List TexSection) (cur : Nat),
    (∀ (k : Nat) (s : TexSection), l[k]? = some s →
      ∃ si, levelIndex s.level = some si ∧ cur < si) →
    scanEnd l cur = some none
  | [], _, _ => rfl
  | s :: t, cur, hall => by
    obtain ⟨si, hsi, hgt⟩ := hall 0 s (by simp)
    have hnot : ¬ si ≤ cur := Nat.not_le.mpr hgt
    have ht := scanEnd_eq_none t cur (fun k u hu => hall (k + 1) u (by simpa using hu))
    simp [scanEnd, hsi, hnot, ht]

theorem scanEnd_eq_err (l : List TexSection) (cur : Nat) (m : Nat) (s : TexSection)
    (hm : l[m]? = some s) (herr : levelIndex s.level = none)
    (hmid : ∀ k, k < m → ∀ u, l[k]? = some u →
      ∃ ui, levelIndex u.level = some ui ∧ cur < ui) :
    scanEnd l cur = none := by
  induction l generalizing m with
  | nil => simp at hm
  | cons x t ih =>
    cases m with
    | zero =>
      simp only [List.getElem?_cons_zero, Option.some.injEq] at hm
      subst hm
      simp [scanEnd, herr]
    | succ m' =>
      obtain ⟨si, hsi, hgt⟩ := hmid 0 (Nat.succ_pos m') x (by simp)
      have hnot : ¬ si ≤ cur := Nat.not_le.mpr hgt
      simp only [List.getElem?_cons_succ] at hm
      have ht := ih m' hm (fun k hk u hu =>
        hmid (k + 1) (Nat.succ_lt_succ hk) u (by simpa using hu))
      simp [scanEnd, hsi, hnot, ht]

theorem pyIdx_of_nonneg (n : Nat) (a : Int) (ha : 0 ≤ a) (han : a ≤ (n : Int)) :
    pyIdx n a = a.toNat := by
  unfold pyIdx
  rw [if_neg (by omega), min_eq_left han]

theorem pyIdx_length (n : Nat) : pyIdx n (n : Int) = n := by
  rw [pyIdx_of_nonneg n n (by omega) (by omega)]
  omega

theorem pySlice_of_nonneg {α : Type} (l : List α) (a b : Int) (ha : 0 ≤ a) (hb0 : 0 ≤ b)
    (hbl : b ≤ (l.length : Int)) :
    pySlice l a b = (l.take b.toNat).drop a.toNat := by
  unfold pySlice
  rw [pyIdx_of_nonneg _ _ hb0 hbl]
  rcases le_or_lt a (l.length : Int) with h | h
  · rw [pyIdx_of_nonneg _ _ ha h]
  · unfold pyIdx
    rw [if_neg (by omega), min_eq_right (le_of_lt h)]
    have h1 : (l.take b.toNat).length ≤ ((l.length : Int)).toNat := by
      simp [List.length_take]
    rw [List.drop_eq_nil_of_le h1, List.drop_eq_nil_of_le (by simp [List.length_take]; omega)]

theorem extract_lines_none (lines : List String) (start : Int) (h : 1 ≤ start) :
    extract_lines lines start none = lines.drop (start - 1).toNat := by
  show pySlice lines (start - 1) ((lines.length : Nat) : Int) = _
  rw [pySlice_of_nonneg _ _ _ (by omega) (by omega) (by omega)]
  simp

theorem extract_lines_some (lines : List String) (start e : Int) (h1 : 1 ≤ start)
    (h2 : 0 ≤ e) (h3 : e ≤ (lines.length : Int)) :
    extract_lines lines start (some e) = (lines.take e.toNat).drop (start - 1).toNat := by
  unfold extract_lines
  rw [show (match (some e : Option Int) with
      | none => ((lines.length : Nat) : Int)
      | some e => min e (lines.length : Int)) = min e (lines.length : Int) from rfl,
    min_eq_left h3, pySlice_of_nonneg _ _ _ (by omega) h2 h3]

theorem parse_toc_append : ∀ (ls1 ls2 : List String),
    parse_toc (ls1 ++ ls2) =
      match parse_toc ls1 with
      | none => none
      | some a => (parse_toc ls2).map (a ++ ·)
  | [], ls2 => by
    simp only [List.nil_append, parse_toc]
    cases parse_toc ls2 <;> simp
  | l :: t, ls2 => by
    have ih := parse_toc_append t ls2
    cases hpl : parse_line? l with
    | none => simp only [List.cons_append, parse_toc, hpl]
    | some o =>
      cases o with
      | none =>
        simp only [List.cons_append, parse_toc, hpl]
        exact ih
      | some r =>
        simp only [List.cons_append, parse_toc, hpl]
        simp only [List.append_eq]
        rw [ih]
        cases parse_toc t <;> cases parse_toc ls2 <;> simp

theorem parse_line?_blank (l : String) (h : pyStrip l = "") : parse_line? l = some none := by
  unfold parse_line?
  simp [h]

theorem parse_line?_bad_count (l : String) (hb : pyStrip l ≠ "")
    (h : (pySplitComma (pyStrip l)).length ≠ 4) : parse_line? l = some none := by
  unfold parse_line?
  rw [if_neg hb]
  have hlen : ((pySplitComma (pyStrip l)).map pyStrip).length ≠ 4 := by
    simpa using h
  rcases hp : (pySplitComma (pyStrip l)).map pyStrip with _ | ⟨a, _ | ⟨b, _ | ⟨c, _ | ⟨d, _ | ⟨e, t⟩⟩⟩⟩⟩ <;>
    simp_all

theorem parse_line?_record (l : String) (a b c d : String) (n : Int) (hb : pyStrip l ≠ "")
    (hp : (pySplitComma (pyStrip l)).map pyStrip = [a, b, c, d]) (hn : pyInt? d = some n) :
    parse_line? l = some (some ⟨a, b, c, n⟩) := by
  unfold parse_line?
  rw [if_neg hb, hp]
  simp [hn]

theorem parse_line?_bad_int (l : String) (a b c d : String) (hb : pyStrip l ≠ "")
    (hp : (pySplitComma (pyStrip l)).map pyStrip = [a, b, c, d]) (hn : pyInt? d = none) :
    parse_line? l = none := by
  unfold parse_line?
  rw [if_neg hb, hp]
  simp [hn]

theorem join_foldl (l : List String) (init : String) :
    l.foldl (fun r s => r ++ s) init = init ++ String.join l := by
  induction l generalizing init with
  | nil => simp [String.join]
  | cons s t ih =>
    have h1 : String.join (s :: t) = s ++ String.join t := by
      show List.foldl (fun r s => r ++ s) "" (s :: t) = _
      rw [List.foldl_cons, ih]
      simp
    rw [List.foldl_cons, ih, h1, String.append_assoc]

theorem join_append_str (a b : List String) :
    String.join (a ++ b) = String.join a ++ String.join b := by
  show List.foldl (fun r s => r ++ s) "" (a ++ b) = _
  rw [List.foldl_append]
  exact join_foldl b (String.join a)

theorem join_singleton (s : String) : String.join [s] = s := rfl

theorem getLast?_filter_of_getLast? {α : Type} (p : α → Bool) : ∀ (l : List α) (a : α),
    l.getLast? = some a → p a = true → (l.filter p).getLast? = some a
  | [], a, h, _ => by simp at h
  | [x], a, h, hp => by
    simp at h
    subst h
    simp [List.filter_cons, hp]
  | x :: y :: u, a, h, hp => by
    rw [List.getLast?_cons_cons] at h
    have ih := getLast?_filter_of_getLast? p (y :: u) a h hp
    rw [List.filter_cons]
    by_cases hx : p x
    · rw [if_pos hx]
      cases hf : (y :: u).filter p with
      | nil => rw [hf] at ih; simp at ih
      | cons b v =>
        rw [hf] at ih
        rw [List.getLast?_cons_cons]
        exact ih
    · rw [if_neg hx]
      exact ih

theorem enum_getLast? {α : Type} (l : List α) (hne : l ≠ []) :
    l.enum.getLast? = some (l.length - 1, l.getLast hne) := by
  rw [List.getLast?_eq_getElem?]
  have hlen : l.enum.length = l.length := by
    simp [List.enum_eq_enumFrom]
  rw [hlen, List.enum_eq_enumFrom, List.getElem?_enumFrom]
  rw [← List.getLast?_eq_getElem?, List.getLast?_eq_getLast l hne]
  simp

theorem chapter_indices_getLast (sections : List TexSection) (hne : sections ≠ [])
    (hlast : (sections.getLast hne).level = "chapter") :
    (chapter_indices sections).getLast? = some (sections.length - 1) := by
  unfold chapter_indices
  rw [List.getLast?_map,
    getLast?_filter_of_getLast? _ _ _ (enum_getLast? sections hne) (by simp [hlast])]
  rfl

theorem process_labels_shape : ∀ (mapping : List (String × String))
    (sections : List TexSection) (lines : List String)
    (files : List (String × List String)) (ws : List String),
    process_labels mapping sections lines = some (files, ws) →
    files.map Prod.fst =
      (mapping.filter (fun p => sections.any (fun s => s.label == p.1))).map Prod.snd ∧
    ws = (mapping.filter (fun p => !sections.any (fun s => s.label == p.1))).map Prod.fst
  | [], sections, lines, files, ws, h => by
    simp only [process_labels, Option.some.injEq, Prod.mk.injEq] at h
    obtain ⟨rfl, rfl⟩ := h
    simp
  | (label, filename) :: rest, sections, lines, files, ws, h => by
    simp only [process_labels] at h
    cases hfi : sections.findIdx? (fun s => s.label == label) with
    | none =>
      rw [hfi] at h
      cases hrec : process_labels rest sections lines with
      | none => rw [hrec] at h; simp at h
      | some r =>
        obtain ⟨fs', ws'⟩ := r
        rw [hrec] at h
        simp only [Option.map_some', Option.some.injEq, Prod.mk.injEq] at h
        obtain ⟨h1, h2⟩ := h
        have hany : sections.any (fun s => s.label == label) = false := by
          rw [List.findIdx?_eq_none_iff] at hfi
          simp only [List.any_eq_false]
          intro x hx
          simp [hfi x hx]
        obtain ⟨ih1, ih2⟩ := process_labels_shape rest sections lines fs' ws' hrec
        subst h1
        subst h2
        simp [List.filter_cons, hany, ih1, ih2]
    | some i =>
      rw [hfi] at h
      dsimp only at h
      cases hr : find_section_content_range sections i with
      | none => rw [hr] at h; simp at h
      | some se =>
        obtain ⟨s0, e0⟩ := se
        rw [hr] at h
        cases hrec : process_labels rest sections lines with
        | none => rw [hrec] at h; simp at h
        | some r =>
          obtain ⟨fs', ws'⟩ := r
          rw [hrec] at h
          simp only [Option.map_some', Option.some.injEq, Prod.mk.injEq] at h
          obtain ⟨h1, h2⟩ := h
          have hany : sections.any (fun s => s.label == label) = true := by
            cases hana : sections.any (fun s => s.label == label) with
            | true => rfl
            | false =>
              rw [List.any_eq_false] at hana
              have : sections.findIdx? (fun s => s.label == label) = none := by
                rw [List.findIdx?_eq_none_iff]
                intro x hx
                simpa using hana x hx
              rw [this] at hfi
              cases hfi
          obtain ⟨ih1, ih2⟩ := process_labels_shape rest sections lines fs' ws' hrec
          subst h1
          subst h2
          simp [List.filter_cons, hany, ih1, ih2]

theorem backmatterSuffix_eq_of_getLast (lines : List String) (sections : List TexSection)
    (lci : Nat) (h : (chapter_indices sections).getLast? = some lci) :
    backmatterSuffix lines sections =
      pySlice lines (backmatter_start_val lines sections lci - 1) (lines.length) := by
  unfold backmatterSuffix
  rw [h]

theorem backmatter_start_val_marker (lines : List String) (sections : List TexSection)
    (lci : Nat) (i : Nat) (hn : sections[scanNonChapter sections (lci + 1)]? = none)
    (hi : lines.findIdx? isMarkerLine = some i) :
    backmatter_start_val lines sections lci = (i : Int) + 1 := by
  unfold backmatter_start_val
  rw [hn, hi]

theorem backmatter_start_val_nomarker (lines : List String) (sections : List TexSection)
    (lci : Nat) (hn : sections[scanNonChapter sections (lci + 1)]? = none)
    (hi : lines.findIdx? isMarkerLine = none) :
    backmatter_start_val lines sections lci = (lines.length : Int) := by
  unfold backmatter_start_val
  rw [hn, hi]

theorem pySlice_last {α : Type} (l : List α) :
    pySlice l ((l.length : Int) - 1) (l.length : Int) = l.drop (l.length - 1) := by
  cases l with
  | nil => rfl
  | cons x t =>
    rw [pySlice_of_nonneg _ _ _ (by simp) (by omega) (by omega)]
    have h : (((x :: t).length : Int) - 1).toNat = (x :: t).length - 1 := by
      simp
    rw [h]
    simp

/-! Claim theorems. -/

/-- C1: for every record sequence and target index, the range resolver
returns start line = the target's line number, and end line = (line number
minus one) of the first subsequent record whose nesting-level rank is less
than or equal to the target's; in particular a "section" record immediately
followed by another "section" record at line L gets end line L-1 (the
witness instantiates exactly that situation). -/
theorem claim_C1_range_resolver (sections : List TexSection) (i j : Nat) (t r : TexSection)
    (ti ri : Nat) (ht : sections[i]? = some t) (hti : levelIndex t.level = some ti)
    (hij : i < j) (hr : sections[j]? = some r) (hri : levelIndex r.level = some ri)
    (hle : ri ≤ ti)
    (hmid : ∀ k, i < k → k < j → ∀ (s : TexSection), sections[k]? = some s →
      ∃ si, levelIndex s.level = some si ∧ ti < si) :
    find_section_content_range sections i = some (t.line_num, some (r.line_num - 1)) := by
  have hm : (sections.drop (i + 1))[j - i - 1]? = some r := by
    rw [getElem?_drop_add, show i + 1 + (j - i - 1) = j from by omega]
    exact hr
  have hscan : scanEnd (sections.drop (i + 1)) ti = some (some (r.line_num - 1)) :=
    scanEnd_eq_of_first _ _ (j - i - 1) r ri hm hri hle (fun k hk s hs => by
      rw [getElem?_drop_add] at hs
      exact hmid (i + 1 + k) (by omega) (by omega) s hs)
  simp only [find_section_content_range, ht, hti, hscan]

/-- Witness for C1: two adjacent "section" records at lines 3 and 7; the
first record's range is (3, 6). -/
theorem claim_C1_witness :
    find_section_content_range
      [⟨"section", "A", "a", 3⟩, ⟨"section", "B", "b", 7⟩] 0 = some (3, some 6) := by
  have h := claim_C1_range_resolver
    [⟨"section", "A", "a", 3⟩, ⟨"section", "B", "b", 7⟩] 0 1
    ⟨"section", "A", "a", 3⟩ ⟨"section", "B", "b", 7⟩ 1 1
    (by decide) (by decide) (by omega) (by decide) (by decide) (by omega)
    (by intro k hk1 hk2 s hs; omega)
  simpa using h

/-- C2 counterexample: the non-blank line "a,b,c,x" splits on commas into
exactly 4 fields, yet the parser does not produce a record for it — it
raises (the `int` conversion fails), modelled by `none`. This falsifies the
claim that every non-blank 4-field line yields a record with no error. -/
theorem claim_C2_counterexample : parse_toc ["a,b,c,x"] = none := by decide

/-- C2 as amended: a blank line is skipped; a line whose comma-split has a
field count other than 4 produces no record and no error; a non-blank
4-field line whose trimmed fourth field is a valid integer produces exactly
one record with all four fields whitespace-trimmed. -/
theorem claim_C2_parse_toc_behavior (ls : List String) (l : String) :
    (pyStrip l = "" → parse_toc (ls ++ [l]) = parse_toc ls) ∧
    ((pySplitComma (pyStrip l)).length ≠ 4 → parse_toc (ls ++ [l]) = parse_toc ls) ∧
    (∀ (level title label num : String) (n : Int),
      pyStrip l ≠ "" →
      (pySplitComma (pyStrip l)).map pyStrip = [level, title, label, num] →
      pyInt? num = some n →
      parse_toc (ls ++ [l]) = (parse_toc ls).map (· ++ [⟨level, title, label, n⟩])) := by
  refine ⟨?_, ?_, ?_⟩
  · intro h
    rw [parse_toc_append]
    have h1 : parse_toc [l] = some [] := by
      simp [parse_toc, parse_line?_blank l h]
    rw [h1]
    cases parse_toc ls <;> simp
  · intro h
    have hpl : parse_line? l = some none := by
      by_cases hb : pyStrip l = ""
      · exact parse_line?_blank l hb
      · exact parse_line?_bad_count l hb h
    rw [parse_toc_append]
    have h1 : parse_toc [l] = some [] := by
      simp [parse_toc, hpl]
    rw [h1]
    cases parse_toc ls <;> simp
  · intro level title label num n hb hp hn
    rw [parse_toc_append]
    have h1 : parse_toc [l] = some [⟨level, title, label, n⟩] := by
      simp [parse_toc, parse_line?_record l level title label num n hb hp hn]
    rw [h1]
    cases parse_toc ls <;> simp

/-- Witness for C2: a wrong-field-count line is dropped and a valid 4-field
line (with padding around its fields) becomes one trimmed record. -/
theorem claim_C2_witness :
    parse_toc ["x,y", "chapter, T , lbl , 5"] = some [⟨"chapter", "T", "lbl", 5⟩] := by
  have h := (claim_C2_parse_toc_behavior ["x,y"] "chapter, T , lbl , 5").2.2
    "chapter" "T" "lbl" "5" 5 (by decide) (by decide) (by decide)
  exact h.trans (by decide)

/-- C3 counterexample. First scenario: no line of the file contains a
back-matter or bibliography marker, yet Step 4 appends the final line of the
file ("body\n") instead of nothing. Second scenario: the only marker line
(line 1) precedes the last top-level record (at line 2) and no marker
follows that record, yet Step 4 appends the whole file from line 1,
duplicating already-emitted content, instead of appending nothing. -/
theorem claim_C3_counterexample :
    (["\\chapter\x7bA\x7d\n", "body\n"].findIdx? isMarkerLine = none ∧
      backmatterSuffix ["\\chapter\x7bA\x7d\n", "body\n"] [⟨"chapter", "A", "", 1⟩] =
        ["body\n"]) ∧
    (isMarkerLine "body\n" = false ∧
      backmatterSuffix ["\\bibliography\x7bx\x7d\n", "\\chapter\x7bA\x7d\n", "body\n"]
        [⟨"chapter", "A", "", 2⟩] =
        ["\\bibliography\x7bx\x7d\n", "\\chapter\x7bA\x7d\n", "body\n"]) := by
  decide

/-- C3 as amended: when no structural record follows the last chapter-level
record, Step 4 appends everything from the first line anywhere in the file
that contains a back-matter/bibliography marker (not merely after the last
record); when no marker line exists at all it appends the final line of the
file (nothing only when the file is empty). -/
theorem claim_C3_backmatter (lines : List String) (sections : List TexSection)
    (hne : sections ≠ []) (hlast : (sections.getLast hne).level = "chapter") :
    (∀ i, lines.findIdx? isMarkerLine = some i →
      backmatterSuffix lines sections = lines.drop i) ∧
    (lines.findIdx? isMarkerLine = none →
      backmatterSuffix lines sections = lines.drop (lines.length - 1)) := by
  have hlen : 1 ≤ sections.length := List.length_pos.mpr hne
  have hgl := chapter_indices_getLast sections hne hlast
  have hscan : scanNonChapter sections (sections.length - 1 + 1) = sections.length := by
    unfold scanNonChapter
    rw [show sections.length - 1 + 1 = sections.length from by omega, List.drop_length]
    simp
  have hnone : sections[scanNonChapter sections (sections.length - 1 + 1)]? = none := by
    rw [hscan]
    exact List.getElem?_eq_none (le_refl _)
  constructor
  · intro i hib
    rw [backmatterSuffix_eq_of_getLast lines sections _ hgl,
      backmatter_start_val_marker lines sections _ i hnone hib,
      show ((i : Int) + 1 - 1 : Int) = (i : Int) from by omega,
      pySlice_of_nonneg _ _ _ (by omega) (by omega) (by omega)]
    simp
  · intro hnb
    rw [backmatterSuffix_eq_of_getLast lines sections _ hgl,
      backmatter_start_val_nomarker lines sections _ hnone hnb]
    exact pySlice_last lines

/-- Witness for C3 (amended): in the no-marker scenario the suffix equals
the final line of the file. -/
theorem claim_C3_witness :
    backmatterSuffix ["\\chapter\x7bA\x7d\n", "body\n"] [⟨"chapter", "A", "", 1⟩] =
      ["\\chapter\x7bA\x7d\n", "body\n"].drop (["\\chapter\x7bA\x7d\n", "body\n"].length - 1) :=
  (claim_C3_backmatter ["\\chapter\x7bA\x7d\n", "body\n"] [⟨"chapter", "A", "", 1⟩]
    (by simp) (by simp [List.getLast])).2 (by decide)

/-- C4: for every content-line sequence, the subfile bytes are exactly the
fixed 4-element header followed by the content followed by the fixed footer
string; the header has exactly 4 lines. -/
theorem claim_C4_subfile_template (content : List String) :
    create_subfile_bytes content =
      String.join SUBFILE_HEADER ++ String.join content ++ SUBFILE_FOOTER ∧
    SUBFILE_HEADER.length = 4 := by
  refine ⟨?_, rfl⟩
  unfold create_subfile_bytes create_subfile_lines
  rw [join_append_str, join_append_str, join_singleton]

/-- C5: a record not followed by any record at an equal-or-shallower level
(in particular the last record) gets an unbounded range, and extracting the
unbounded range returns all lines from its start line to the end of the
buffer. -/
theorem claim_C5_unbounded_range (sections : List TexSection) (i : Nat) (t : TexSection)
    (ti : Nat) (lines : List String) (ht : sections[i]? = some t)
    (hti : levelIndex t.level = some ti)
    (hafter : ∀ j, i < j → ∀ (s : TexSection), sections[j]? = some s →
      ∃ si, levelIndex s.level = some si ∧ ti < si)
    (hpos : 1 ≤ t.line_num) :
    find_section_content_range sections i = some (t.line_num, none) ∧
    extract_lines lines t.line_num none = lines.drop (t.line_num - 1).toNat := by
  constructor
  · have hscan : scanEnd (sections.drop (i + 1)) ti = some none :=
      scanEnd_eq_none _ _ (fun k s hs => by
        rw [getElem?_drop_add] at hs
        exact hafter (i + 1 + k) (by omega) s hs)
    simp only [find_section_content_range, ht, hti, hscan]
  · exact extract_lines_none lines t.line_num hpos

/-- Witness for C5: a single record at line 2 over a 3-line buffer. -/
theorem claim_C5_witness :
    find_section_content_range [⟨"section", "A", "a", 2⟩] 0 = some (2, none) ∧
    extract_lines ["a\n", "b\n", "c\n"] 2 none = ["b\n", "c\n"] := by
  have h := claim_C5_unbounded_range [⟨"section", "A", "a", 2⟩] 0
    ⟨"section", "A", "a", 2⟩ 1 ["a\n", "b\n", "c\n"] (by decide) (by decide)
    (by
      intro j hj s hs
      rw [List.getElem?_eq_none (by simpa using hj)] at hs
      cases hs)
    (by decide)
  exact ⟨h.1, h.2.trans (by decide)⟩

/-- C6: parsing the three-record toc yields those records with fields kept
verbatim; the range of the record labeled with the significance-of-study
label (index 1) is lines 3 to 9 (the following chapter record is at line
10); over any 12-line buffer the extraction returns exactly lines 3-9; and
the subfile content is those lines wrapped in the fixed header/footer. -/
theorem claim_C6_round_trip (lines : List String) (h12 : lines.length = 12) :
    parse_toc ["chapter,\"Intro\",\"ch1\",1",
      "section,\"Background\",\"significance_of_study\",3",
      "chapter,\"Methods\",\"ch2\",10"] =
      some [⟨"chapter", "\"Intro\"", "\"ch1\"", 1⟩,
        ⟨"section", "\"Background\"", "\"significance_of_study\"", 3⟩,
        ⟨"chapter", "\"Methods\"", "\"ch2\"", 10⟩] ∧
    find_section_content_range
      [⟨"chapter", "\"Intro\"", "\"ch1\"", 1⟩,
        ⟨"section", "\"Background\"", "\"significance_of_study\"", 3⟩,
        ⟨"chapter", "\"Methods\"", "\"ch2\"", 10⟩] 1 = some (3, some 9) ∧
    extract_lines lines 3 (some 9) = (lines.drop 2).take 7 ∧
    create_subfile_lines (extract_lines lines 3 (some 9)) =
      SUBFILE_HEADER ++ (lines.drop 2).take 7 ++ [SUBFILE_FOOTER] := by
  have hex : extract_lines lines 3 (some 9) = (lines.drop 2).take 7 := by
    rw [extract_lines_some lines 3 9 (by omega) (by omega) (by omega)]
    rw [show ((9 : Int)).toNat = 9 from rfl, show ((3 : Int) - 1).toNat = 2 from rfl]
    exact (List.take_drop 2 7 lines).symm
  refine ⟨by decide, by decide, hex, ?_⟩
  unfold create_subfile_lines
  rw [hex]

/-- Witness for C6: a concrete 12-line buffer. -/
theorem claim_C6_witness :
    extract_lines ["L1\n", "L2\n", "L3\n", "L4\n", "L5\n", "L6\n", "L7\n", "L8\n",
      "L9\n", "L10\n", "L11\n", "L12\n"] 3 (some 9) =
      ["L3\n", "L4\n", "L5\n", "L6\n", "L7\n", "L8\n", "L9\n"] := by
  have h := (claim_C6_round_trip ["L1\n", "L2\n", "L3\n", "L4\n", "L5\n", "L6\n", "L7\n",
    "L8\n", "L9\n", "L10\n", "L11\n", "L12\n"] (by decide)).2.2.1
  exact h.trans (by decide)

/-- C7: at the end of a successful run, a mapping entry whose label appears
in no parsed record is warned about exactly once and contributes no output
file, while every entry whose label is found contributes its file. -/
theorem claim_C7_missing_label (sections : List TexSection) (lines : List String)
    (files : List (String × List String)) (ws : List String) (label filename : String)
    (hmem : (label, filename) ∈ LABEL_TO_FILENAME)
    (habs : ∀ s ∈ sections, s.label ≠ label)
    (hrun : process_labels LABEL_TO_FILENAME sections lines = some (files, ws)) :
    ws.count label = 1 ∧
    filename ∉ files.map Prod.fst ∧
    (∀ p ∈ LABEL_TO_FILENAME, sections.any (fun s => s.label == p.1) = true →
      p.2 ∈ files.map Prod.fst) := by
  obtain ⟨hfiles, hws⟩ := process_labels_shape _ _ _ _ _ hrun
  have hany : sections.any (fun s => s.label == label) = false := by
    simp only [List.any_eq_false]
    intro s hs
    simpa using habs s hs
  refine ⟨?_, ?_, ?_⟩
  · subst hws
    rw [List.count_eq_countP, List.countP_map, List.countP_filter]
    fin_cases hmem <;> simp [LABEL_TO_FILENAME, List.countP_cons, hany]
  · rw [hfiles]
    fin_cases hmem <;>
      simp [LABEL_TO_FILENAME, List.mem_map, List.mem_filter, hany, habs] <;>
      try exact habs
  · intro p hp hq
    rw [hfiles]
    exact List.mem_map_of_mem Prod.snd (List.mem_filter.mpr ⟨hp, hq⟩)

/-- Witness for C7: one record whose label matches no mapping entry; every
mapping label is warned once, no file is produced. -/
theorem claim_C7_witness :
    (["significance_of_study", "problem_statement1", "perception_geometry", "sensors",
      "sec:Atlas_LAN", "sec:calibration", "sec:sensor_data_dataset", "yolo", "gbcache",
      "late_fusion", "performance"].count "significance_of_study" = 1) ∧
    "significance_of_study.tex" ∉ ([] : List (String × List String)).map Prod.fst ∧
    (∀ p ∈ LABEL_TO_FILENAME,
      [TexSection.mk "chapter" "T" "other" 1].any (fun s => s.label == p.1) = true →
      p.2 ∈ ([] : List (String × List String)).map Prod.fst) :=
  claim_C7_missing_label [⟨"chapter", "T", "other", 1⟩] ["x\n"] []
    ["significance_of_study", "problem_statement1", "perception_geometry", "sensors",
      "sec:Atlas_LAN", "sec:calibration", "sec:sensor_data_dataset", "yolo", "gbcache",
      "late_fusion", "performance"]
    "significance_of_study" "significance_of_study.tex"
    (by decide) (by decide) (by decide)

/-- C8: (a) range resolution with a target record whose level is not in the
four-value hierarchy aborts; (b) so does scanning past such a record before
any stopping record is reached; (c) the parser performs no level validation:
a record with an unknown level parses fine. -/
theorem claim_C8_unknown_level :
    (∀ (sections : List TexSection) (i : Nat) (t : TexSection), sections[i]? = some t →
      levelIndex t.level = none → find_section_content_range sections i = none) ∧
    (∀ (sections : List TexSection) (i j : Nat) (t s : TexSection) (ti : Nat),
      sections[i]? = some t → levelIndex t.level = some ti → i < j →
      sections[j]? = some s → levelIndex s.level = none →
      (∀ k, i < k → k < j → ∀ (u : TexSection), sections[k]? = some u →
        ∃ ui, levelIndex u.level = some ui ∧ ti < ui) →
      find_section_content_range sections i = none) ∧
    parse_toc ["bogus,T,L,5"] = some [⟨"bogus", "T", "L", 5⟩] := by
  refine ⟨?_, ?_, by decide⟩
  · intro sections i t ht herr
    simp only [find_section_content_range, ht, herr]
  · intro sections i j t s ti ht hti hij hs herr hmid
    have hm : (sections.drop (i + 1))[j - i - 1]? = some s := by
      rw [getElem?_drop_add, show i + 1 + (j - i - 1) = j from by omega]
      exact hs
    have hscan : scanEnd (sections.drop (i + 1)) ti = none :=
      scanEnd_eq_err _ _ (j - i - 1) s hm herr (fun k hk u hu => by
        rw [getElem?_drop_add] at hu
        exact hmid (i + 1 + k) (by omega) (by omega) u hu)
    simp only [find_section_content_range, ht, hti, hscan]

/-- Witness for C8: a single record with unknown level "bogus" makes range
resolution abort. -/
theorem claim_C8_witness : find_section_content_range [⟨"bogus", "T", "L", 5⟩] 0 = none :=
  claim_C8_unknown_level.1 [⟨"bogus", "T", "L", 5⟩] 0 ⟨"bogus", "T", "L", 5⟩
    (by decide) (by decide)

/-- C9: a run of the tool is a pure function of the toc contents and the
source-file contents (the mapping is a fixed constant), so two runs on
identical inputs produce identical subfile bytes, warnings and master-file
bytes. -/
theorem claim_C9_determinism (toc1 toc2 main1 main2 : List String)
    (h1 : toc1 = toc2) (h2 : main1 = main2) :
    run_tool toc1 main1 = run_tool toc2 main2 := by
  subst h1
  subst h2
  rfl

/-- Witness for C9: two runs on a concrete equal input pair. -/
theorem claim_C9_witness :
    run_tool ["chapter,A,significance_of_study,1"] ["\\chapter\x7bA\x7d\n", "x\n"] =
      run_tool ["chapter,A,significance_of_study,1"] ["\\chapter\x7bA\x7d\n", "x\n"] :=
  claim_C9_determinism _ _ _ _ rfl rfl

/-- C10: a line that splits into exactly 4 fields whose trimmed fourth field
is not a valid integer makes the whole parse abort (unhandled `ValueError`),
regardless of surrounding lines. -/
theorem claim_C10_bad_int (ls rest : List String) (l : String) (a b c d : String)
    (hnb : pyStrip l ≠ "") (h4 : (pySplitComma (pyStrip l)).map pyStrip = [a, b, c, d])
    (hbad : pyInt? d = none) :
    parse_toc (ls ++ l :: rest) = none := by
  rw [parse_toc_append]
  have h1 : parse_toc (l :: rest) = none := by
    simp [parse_toc, parse_line?_bad_int l a b c d hnb h4 hbad]
  rw [h1]
  cases parse_toc ls <;> simp

/-- Witness for C10: the 4-field line "q,w,e,3.5" aborts the parse even
though a valid record precedes it. -/
theorem claim_C10_witness : parse_toc ["chapter,A,l,3", "q,w,e,3.5"] = none :=
  claim_C10_bad_int ["chapter,A,l,3"] [] "q,w,e,3.5" "q" "w" "e" "3.5"
    (by decide) (by decide) (by decide)
